import Mathlib

/-!
Verification of the vehicle dynamics simulator in
`scripts/vehicle_simulator.py` (class `VehicleSimulator`).

The Python code is shallowly embedded over the real numbers: each field of
the simulator object becomes a field of `State`, the body of one iteration
of the `disc_steps` loop in `_update_vehicle_model` becomes `modelSubStep`
followed by `update_low_level_control`, and a full call of
`_update_vehicle_model` is `update_vehicle_model`.

The source file is Python 2 (it uses the `print` statement), so the
expression `1/m` on the forward-speed line, with `m = 1840` bound to an
integer literal, is integer division and evaluates to `0`.  This is kept
faithfully in the embedding as `((1 / p.m : Int) : Real)` where `Params.m`
is an integer, while the neighbouring lines `1.0/m` and `1.0/Iz` are real
divisions, exactly as in the source.
-/

namespace VehicleSim

/-- Python float modulo `a % b`: `a - b * floor (a / b)`; for `b > 0` the
result lies in `[0, b)`. -/
noncomputable def fmod (a b : ℝ) : ℝ := a - b * ⌊a / b⌋

/-- Heading wrap used at the commit line
`self.psi = (psi_n + np.pi) % (2.0 * np.pi) - np.pi`. -/
noncomputable def wrap (θ : ℝ) : ℝ := fmod (θ + Real.pi) (2 * Real.pi) - Real.pi

/-- Embedding of `np.arctan2 y x` (four-quadrant arctangent). -/
noncomputable def arctan2 (y x : ℝ) : ℝ :=
  if 0 < x then Real.arctan (y / x)
  else if x < 0 then
    (if 0 ≤ y then Real.arctan (y / x) + Real.pi else Real.arctan (y / x) - Real.pi)
  else
    (if 0 < y then Real.pi / 2 else if y < 0 then -(Real.pi / 2) else 0)

/-- Vehicle parameters, the constants bound at the top of
`_update_vehicle_model`.  `m` and `Iz` are integer literals in the source
(`1840` and `3477`), the rest are floats. -/
structure Params where
  lf : ℝ
  lr : ℝ
  d : ℝ
  m : ℤ
  Iz : ℤ
  C_alpha_f : ℝ
  C_alpha_r : ℝ

/-- Azera parameter values from the source. -/
def azeraParams : Params :=
  { lf := 1.152, lr := 1.693, d := 0.8125, m := 1840, Iz := 3477,
    C_alpha_f := 4.0703e4, C_alpha_r := 6.4495e4 }

/-- Simulator state: the mutable fields of the `VehicleSimulator` object. -/
structure State where
  X : ℝ
  Y : ℝ
  psi : ℝ
  vx : ℝ
  vy : ℝ
  wz : ℝ
  acc : ℝ
  df : ℝ
  acc_des : ℝ
  df_des : ℝ
  dt_model : ℝ
  tcmd : Option ℝ

/-- Front slip angle: `alpha_f = 0` unless `|vx| > 1e-6`, in which case
`alpha_f = df - arctan2 (vy + lf * wz) vx`. -/
noncomputable def alpha_f (p : Params) (s : State) : ℝ :=
  if 1e-6 < |s.vx| then s.df - arctan2 (s.vy + p.lf * s.wz) s.vx else 0

/-- Rear slip angle: `alpha_r = 0` unless `|vx| > 1e-6`, in which case
`alpha_r = - arctan2 (vy - lf * wz) vx` (the source uses `lf` here). -/
noncomputable def alpha_r (p : Params) (s : State) : ℝ :=
  if 1e-6 < |s.vx| then -arctan2 (s.vy - p.lf * s.wz) s.vx else 0

/-- Front lateral tire force, linear tire model. -/
noncomputable def Fyf (p : Params) (s : State) : ℝ := p.C_alpha_f * alpha_f p s

/-- Rear lateral tire force, linear tire model. -/
noncomputable def Fyr (p : Params) (s : State) : ℝ := p.C_alpha_r * alpha_r p s

/-- Next forward speed, line 84 of the source:
`vx_n = max(0.0, vx + deltaT * (acc - 1/m*Fyf*sin(df) + wz*vy))`.
Note `1 / p.m` is integer division exactly as `1/m` is in the Python 2
source. -/
noncomputable def vx_next (p : Params) (deltaT : ℝ) (s : State) : ℝ :=
  max 0 (s.vx + deltaT *
    (s.acc - ((1 / p.m : ℤ) : ℝ) * Fyf p s * Real.sin s.df + s.wz * s.vy))

/-- Next lateral speed: the forward-driving guard `vx_n > 1e-6` selects the
dynamics update, otherwise `0`. -/
noncomputable def vy_next (p : Params) (deltaT : ℝ) (s : State) : ℝ :=
  if 1e-6 < vx_next p deltaT s then
    s.vy + deltaT * (1.0 / (p.m : ℝ) * (Fyf p s * Real.cos s.df + Fyr p s) - s.wz * s.vx)
  else 0

/-- Next yaw rate: the forward-driving guard `vx_n > 1e-6` selects the
dynamics update, otherwise `0`. -/
noncomputable def wz_next (p : Params) (deltaT : ℝ) (s : State) : ℝ :=
  if 1e-6 < vx_next p deltaT s then
    s.wz + deltaT * (1.0 / (p.Iz : ℝ) * (p.lf * Fyf p s * Real.cos s.df - p.lr * Fyr p s))
  else 0

/-- One pass of the vehicle-dynamics part of the loop body of
`_update_vehicle_model` (lines 70-104): compute slip angles, forces and the
Euler updates from the start-of-sub-step snapshot, then commit. -/
noncomputable def modelSubStep (p : Params) (deltaT : ℝ) (s : State) : State :=
  { s with
    X := s.X + deltaT * (s.vx * Real.cos s.psi - s.vy * Real.sin s.psi),
    Y := s.Y + deltaT * (s.vx * Real.sin s.psi + s.vy * Real.cos s.psi),
    psi := wrap (s.psi + deltaT * s.wz),
    vx := vx_next p deltaT s,
    vy := vy_next p deltaT s,
    wz := wz_next p deltaT s }

/-- Embedding of `_update_low_level_control`. -/
def update_low_level_control (dt_control : ℝ) (s : State) : State :=
  { s with
    acc := 5.0 * (s.acc_des - s.acc) * dt_control + s.acc,
    df := 5.0 * (s.df_des - s.df) * dt_control + s.df }

/-- One full iteration of the `disc_steps` loop: dynamics commit followed by
the actuator-lag update. -/
noncomputable def subStep (p : Params) (deltaT : ℝ) (s : State) : State :=
  update_low_level_control deltaT (modelSubStep p deltaT s)

/-- Embedding of a full call `_update_vehicle_model(disc_steps)`:
`deltaT = dt_model / disc_steps`, then `disc_steps` sub-steps. -/
noncomputable def update_vehicle_model (p : Params) (disc_steps : ℕ) (s : State) : State :=
  (subStep p (s.dt_model / (disc_steps : ℝ)))^[disc_steps] s

/-- Initial state built in `__init__`: position and heading from the
parameters `X0, Y0, Psi0`, all speeds and actuation zero, `dt_model = 0.01`,
no command received yet. -/
def initState (X0 Y0 Psi0 : ℝ) : State :=
  { X := X0, Y := Y0, psi := Psi0, vx := 0, vy := 0, wz := 0,
    acc := 0, df := 0, acc_des := 0, df_des := 0, dt_model := 0.01, tcmd := none }

/-- Embedding of `_mpc_cmd_callback`: overwrite the desired commands and the
command timestamp. -/
def mpc_cmd_callback (t accel_cmd steer_angle_cmd : ℝ) (s : State) : State :=
  { s with tcmd := some t, acc_des := accel_cmd, df_des := steer_angle_cmd }

/-- Reachable simulator states: an initial state, then any interleaving of
integration sub-steps (with `deltaT = dt_model / 10` as in the 100 Hz loop
with `disc_steps = 10`) and asynchronous command callbacks. -/
inductive Reachable : State → Prop where
  | init : ∀ X0 Y0 Psi0 : ℝ, Reachable (initState X0 Y0 Psi0)
  | sub : ∀ s : State, Reachable s → Reachable (subStep azeraParams (s.dt_model / 10) s)
  | cmd : ∀ (s : State) (t a d : ℝ), Reachable s → Reachable (mpc_cmd_callback t a d s)

/-- Spec-side next forward speed, following the specification sentence word
for word: `vx_n = max(0, vx + deltaT*(acc - Fyf*sin(df)/m + wz*vy))` with a
real-valued division by the mass `m`.  Kept separate from `vx_next`, the
faithful embedding of the source line, to compare the two. -/
noncomputable def spec_vx_next (p : Params) (deltaT : ℝ) (s : State) : ℝ :=
  max 0 (s.vx + deltaT * (s.acc - Fyf p s * Real.sin s.df / (p.m : ℝ) + s.wz * s.vy))

/-- Moving test state: forward speed 1 m/s with the steering at 90 degrees,
so that the front tire force and the sine of the steering angle are both
non-zero. -/
noncomputable def sForward : State :=
  { X := 0, Y := 0, psi := 0, vx := 1, vy := 0, wz := 0, acc := 0,
    df := Real.pi / 2, acc_des := 0, df_des := 0, dt_model := 0.01, tcmd := none }

/-- Test state with a unit actuation error: actual acceleration 1, desired
acceleration 0. -/
def sLagErr : State :=
  { X := 0, Y := 0, psi := 0, vx := 0, vy := 0, wz := 0, acc := 1, df := 0,
    acc_des := 0, df_des := 0, dt_model := 0.01, tcmd := none }

/-- Test state at rest but with a residual actual acceleration of 10 m/s²
while the desired commands are zero. -/
def sRestAcc : State :=
  { X := 0, Y := 0, psi := 0, vx := 0, vy := 0, wz := 0, acc := 10, df := 0,
    acc_des := 0, df_des := 0, dt_model := 0.01, tcmd := none }

/-- Straight-line scenario start state: origin, zero heading and speeds,
desired acceleration 1, desired steering 0. -/
def sStraight : State :=
  { X := 0, Y := 0, psi := 0, vx := 0, vy := 0, wz := 0, acc := 0, df := 0,
    acc_des := 1, df_des := 0, dt_model := 0.01, tcmd := none }

/-- Invariant of the straight-line scenario: zero lateral state, zero
steering, zero heading, zero lateral position, commands held at
`acc_des = 1`, `df_des = 0`, non-negative forward speed and actual
acceleration. -/
def straightInv (s : State) : Prop :=
  s.vy = 0 ∧ s.wz = 0 ∧ s.df = 0 ∧ s.psi = 0 ∧ s.Y = 0 ∧
  s.acc_des = 1 ∧ s.df_des = 0 ∧ 0 ≤ s.vx ∧ 0 ≤ s.acc

section BasicLemmas

lemma fmod_nonneg (a b : ℝ) (hb : 0 < b) : 0 ≤ fmod a b := by
  have h1 : ((⌊a / b⌋ : ℝ)) ≤ a / b := Int.floor_le _
  have hba : b * (a / b) = a := by field_simp
  have h2 : b * ((⌊a / b⌋ : ℝ)) ≤ b * (a / b) := by
    exact mul_le_mul_of_nonneg_left h1 hb.le
  unfold fmod
  rw [hba] at h2
  linarith

lemma fmod_lt (a b : ℝ) (hb : 0 < b) : fmod a b < b := by
  have h1 : a / b < (⌊a / b⌋ : ℝ) + 1 := Int.lt_floor_add_one _
  have hba : b * (a / b) = a := by field_simp
  have h2 : b * (a / b) < b * ((⌊a / b⌋ : ℝ) + 1) := by
    exact mul_lt_mul_of_pos_left h1 hb
  unfold fmod
  rw [hba] at h2
  nlinarith

lemma wrap_mem_Ico (θ : ℝ) : -Real.pi ≤ wrap θ ∧ wrap θ < Real.pi := by
  have h2 : (0 : ℝ) < 2 * Real.pi := Real.two_pi_pos
  constructor
  · have := fmod_nonneg (θ + Real.pi) (2 * Real.pi) h2
    unfold wrap
    linarith
  · have := fmod_lt (θ + Real.pi) (2 * Real.pi) h2
    unfold wrap
    linarith

lemma wrap_eq_self (θ : ℝ) (h1 : -Real.pi ≤ θ) (h2 : θ < Real.pi) : wrap θ = θ := by
  have hpos : (0 : ℝ) < 2 * Real.pi := Real.two_pi_pos
  have hfloor : ⌊(θ + Real.pi) / (2 * Real.pi)⌋ = 0 := by
    rw [Int.floor_eq_zero_iff, Set.mem_Ico]
    constructor
    · exact div_nonneg (by linarith) hpos.le
    · rw [div_lt_one hpos]
      linarith
  unfold wrap fmod
  rw [hfloor]
  push_cast
  ring

lemma wrap_zero : wrap 0 = 0 := by
  have h := Real.pi_pos
  exact wrap_eq_self 0 (by linarith) h

lemma arctan2_zero_of_pos (x : ℝ) (hx : 0 < x) : arctan2 0 x = 0 := by
  unfold arctan2
  rw [if_pos hx, zero_div, Real.arctan_zero]

end BasicLemmas

section ProjectionLemmas

variable (p : Params) (deltaT : ℝ) (s : State)

@[simp] lemma subStep_X :
    (subStep p deltaT s).X = s.X + deltaT * (s.vx * Real.cos s.psi - s.vy * Real.sin s.psi) := rfl

@[simp] lemma subStep_Y :
    (subStep p deltaT s).Y = s.Y + deltaT * (s.vx * Real.sin s.psi + s.vy * Real.cos s.psi) := rfl

@[simp] lemma subStep_psi : (subStep p deltaT s).psi = wrap (s.psi + deltaT * s.wz) := rfl

@[simp] lemma subStep_vx : (subStep p deltaT s).vx = vx_next p deltaT s := rfl

@[simp] lemma subStep_vy : (subStep p deltaT s).vy = vy_next p deltaT s := rfl

@[simp] lemma subStep_wz : (subStep p deltaT s).wz = wz_next p deltaT s := rfl

@[simp] lemma subStep_acc :
    (subStep p deltaT s).acc = 5.0 * (s.acc_des - s.acc) * deltaT + s.acc := rfl

@[simp] lemma subStep_df :
    (subStep p deltaT s).df = 5.0 * (s.df_des - s.df) * deltaT + s.df := rfl

@[simp] lemma subStep_acc_des : (subStep p deltaT s).acc_des = s.acc_des := rfl

@[simp] lemma subStep_df_des : (subStep p deltaT s).df_des = s.df_des := rfl

@[simp] lemma subStep_dt_model : (subStep p deltaT s).dt_model = s.dt_model := rfl

@[simp] lemma subStep_tcmd : (subStep p deltaT s).tcmd = s.tcmd := rfl

end ProjectionLemmas

section HelperLemmas

@[simp] lemma mpc_cmd_callback_vx (t a d : ℝ) (s : State) :
    (mpc_cmd_callback t a d s).vx = s.vx := rfl

lemma iterate_subStep_acc_des (p : Params) (deltaT : ℝ) (n : ℕ) (s : State) :
    ((subStep p deltaT)^[n] s).acc_des = s.acc_des := by
  induction n with
  | zero => rfl
  | succ n ih => rw [Function.iterate_succ_apply', subStep_acc_des, ih]

lemma iterate_subStep_df_des (p : Params) (deltaT : ℝ) (n : ℕ) (s : State) :
    ((subStep p deltaT)^[n] s).df_des = s.df_des := by
  induction n with
  | zero => rfl
  | succ n ih => rw [Function.iterate_succ_apply', subStep_df_des, ih]

lemma iterate_subStep_tcmd (p : Params) (deltaT : ℝ) (n : ℕ) (s : State) :
    ((subStep p deltaT)^[n] s).tcmd = s.tcmd := by
  induction n with
  | zero => rfl
  | succ n ih => rw [Function.iterate_succ_apply', subStep_tcmd, ih]

lemma iterate_subStep_dt_model (p : Params) (deltaT : ℝ) (n : ℕ) (s : State) :
    ((subStep p deltaT)^[n] s).dt_model = s.dt_model := by
  induction n with
  | zero => rfl
  | succ n ih => rw [Function.iterate_succ_apply', subStep_dt_model, ih]

lemma alpha_f_of_vx_zero (p : Params) (s : State) (h : s.vx = 0) : alpha_f p s = 0 := by
  unfold alpha_f
  rw [h]
  norm_num

lemma alpha_r_of_vx_zero (p : Params) (s : State) (h : s.vx = 0) : alpha_r p s = 0 := by
  unfold alpha_r
  rw [h]
  norm_num

lemma Fyf_of_vx_zero (p : Params) (s : State) (h : s.vx = 0) : Fyf p s = 0 := by
  unfold Fyf
  rw [alpha_f_of_vx_zero p s h, mul_zero]

lemma Fyr_of_vx_zero (p : Params) (s : State) (h : s.vx = 0) : Fyr p s = 0 := by
  unfold Fyr
  rw [alpha_r_of_vx_zero p s h, mul_zero]

end HelperLemmas

/-- C2: every integration sub-step commits `psi` as `wrap(psi_n)` with
`wrap θ = ((θ + π) mod 2π) - π`, hence after every sub-step — for any state,
any parameters and any `deltaT`, in particular for any real `psi_n` and any
initial `Psi0` outside the interval — and after every full tick, the heading
lies in `[-π, π)`. -/
theorem psi_wrapped_after_subStep :
    (∀ (p : Params) (deltaT : ℝ) (s : State),
        (subStep p deltaT s).psi = wrap (s.psi + deltaT * s.wz) ∧
        -Real.pi ≤ (subStep p deltaT s).psi ∧ (subStep p deltaT s).psi < Real.pi) ∧
    (∀ (p : Params) (s : State),
        -Real.pi ≤ (update_vehicle_model p 10 s).psi ∧
        (update_vehicle_model p 10 s).psi < Real.pi) := by
  constructor
  · intro p deltaT s
    refine ⟨rfl, ?_, ?_⟩
    · exact (wrap_mem_Ico _).1
    · exact (wrap_mem_Ico _).2
  · intro p s
    unfold update_vehicle_model
    rw [show (10 : ℕ) = 9 + 1 from rfl, Function.iterate_succ_apply', subStep_psi]
    exact wrap_mem_Ico _

/-- C3: every reachable simulator state — from any initial state, under any
interleaving of sub-steps and command callbacks with arbitrary real
commands — has a non-negative forward speed `vx`. -/
theorem vx_nonneg_of_reachable (s : State) (h : Reachable s) : 0 ≤ s.vx := by
  induction h with
  | init X0 Y0 Psi0 => exact le_refl 0
  | sub s hs ih =>
    rw [subStep_vx]
    exact le_max_left 0 _
  | cmd s t a d hs ih => exact ih

/-- Witness for C3 at the concrete initial state with `X0 = Y0 = Psi0 = 0`. -/
theorem vx_nonneg_of_reachable_witness : 0 ≤ (initState 0 0 0).vx :=
  vx_nonneg_of_reachable (initState 0 0 0) (Reachable.init 0 0 0)

/-- C4: the slip angles are `alpha_f = df - arctan2 (vy + lf*wz) vx` and
`alpha_r = - arctan2 (vy - lf*wz) vx` when `|vx| > 1e-6` and both are `0`
when `|vx| ≤ 1e-6`, and the lateral tire forces are the cornering
stiffnesses times the slip angles, all as pure functions of the
start-of-sub-step state and the parameters. -/
theorem slip_angles_and_forces (p : Params) (s : State) :
    alpha_f p s =
      (if 1e-6 < |s.vx| then s.df - arctan2 (s.vy + p.lf * s.wz) s.vx else 0) ∧
    alpha_r p s =
      (if 1e-6 < |s.vx| then -arctan2 (s.vy - p.lf * s.wz) s.vx else 0) ∧
    Fyf p s = p.C_alpha_f * alpha_f p s ∧
    Fyr p s = p.C_alpha_r * alpha_r p s :=
  ⟨rfl, rfl, rfl, rfl⟩

/-- C5: if the freshly computed forward speed exceeds `1e-6` the committed
lateral velocity and yaw rate follow the Euler updates built from the
start-of-sub-step snapshot, otherwise both are forced to exactly `0`. -/
theorem vy_wz_guarded_update (p : Params) (deltaT : ℝ) (s : State) :
    (subStep p deltaT s).vy =
      (if 1e-6 < (subStep p deltaT s).vx then
        s.vy + deltaT * ((Fyf p s * Real.cos s.df + Fyr p s) / (p.m : ℝ) - s.wz * s.vx)
      else 0) ∧
    (subStep p deltaT s).wz =
      (if 1e-6 < (subStep p deltaT s).vx then
        s.wz + deltaT * ((p.lf * Fyf p s * Real.cos s.df - p.lr * Fyr p s) / (p.Iz : ℝ))
      else 0) := by
  rw [subStep_vy, subStep_wz, subStep_vx]
  unfold vy_next wz_next
  constructor
  · split_ifs with h
    · ring
    · rfl
  · split_ifs with h
    · ring
    · rfl

/-- C6: at the end of every sub-step the actual actuation moves by the
first-order lag law `acc + 5*(acc_des - acc)*dt`, `df + 5*(df_des - df)*dt`,
with no clamping, for arbitrary real desired commands. -/
theorem actuator_lag_update (p : Params) (dt : ℝ) (s : State) :
    (subStep p dt s).acc = s.acc + 5.0 * (s.acc_des - s.acc) * dt ∧
    (subStep p dt s).df = s.df + 5.0 * (s.df_des - s.df) * dt := by
  rw [subStep_acc, subStep_df]
  constructor <;> ring

/-- C10: a full tick of `_update_vehicle_model` (10 sub-steps with
`deltaT = dt_model / 10`, actuator lag included) leaves the desired
commands, the command timestamp and the model period unchanged, for every
starting state and every parameter value. -/
theorem tick_frame_condition (p : Params) (s : State) :
    (update_vehicle_model p 10 s).acc_des = s.acc_des ∧
    (update_vehicle_model p 10 s).df_des = s.df_des ∧
    (update_vehicle_model p 10 s).tcmd = s.tcmd ∧
    (update_vehicle_model p 10 s).dt_model = s.dt_model := by
  unfold update_vehicle_model
  exact ⟨iterate_subStep_acc_des p _ 10 s, iterate_subStep_df_des p _ 10 s,
    iterate_subStep_tcmd p _ 10 s, iterate_subStep_dt_model p _ 10 s⟩

/-- C1: the source line `vx_n = max(0.0, vx + deltaT*(acc - 1/m*Fyf*sin(df)
+ wz*vy))` is Python 2 code with `m = 1840` an integer, so `1/m` is integer
division and equals `0`: the committed forward speed is
`max(0, vx + deltaT*(acc + wz*vy))` with the tire-force term silently
dropped, not the claimed formula with a real division by 1840.  At the state
`sForward` (vx 1, steering π/2) the code commits `vx = 1` while the claimed
formula (`spec_vx_next`) yields a value strictly below 1. -/
theorem vx_update_drops_tire_force :
    (∀ (deltaT : ℝ) (s : State),
        (subStep azeraParams deltaT s).vx = max 0 (s.vx + deltaT * (s.acc + s.wz * s.vy))) ∧
    (subStep azeraParams (1/1000) sForward).vx = 1 ∧
    spec_vx_next azeraParams (1/1000) sForward < 1 := by
  have hcode : ∀ (deltaT : ℝ) (s : State),
      (subStep azeraParams deltaT s).vx = max 0 (s.vx + deltaT * (s.acc + s.wz * s.vy)) := by
    intro deltaT s
    rw [subStep_vx]
    unfold vx_next
    norm_num [azeraParams]
  refine ⟨hcode, ?_, ?_⟩
  · rw [hcode]
    norm_num [sForward]
  · have hFyf : Fyf azeraParams sForward = 4.0703e4 * (Real.pi / 2) := by
      unfold Fyf alpha_f
      rw [if_pos (by norm_num [sForward])]
      have h1 : sForward.vy + azeraParams.lf * sForward.wz = 0 := by
        norm_num [sForward, azeraParams]
      rw [h1]
      have h2 : sForward.vx = 1 := rfl
      rw [h2, arctan2_zero_of_pos 1 one_pos]
      norm_num [sForward, azeraParams]
    unfold spec_vx_next
    rw [hFyf]
    have hsin : Real.sin sForward.df = 1 := by
      have : sForward.df = Real.pi / 2 := rfl
      rw [this, Real.sin_pi_div_two]
    rw [hsin]
    have hm : ((azeraParams.m : ℤ) : ℝ) = 1840 := by norm_num [azeraParams]
    rw [hm]
    have hlt : sForward.vx + (1/1000 : ℝ) *
        (sForward.acc - 4.0703e4 * (Real.pi / 2) * 1 / 1840 + sForward.wz * sForward.vy) < 1 := by
      have hpi := Real.pi_pos
      have hv : sForward.vx = 1 := rfl
      have ha : sForward.acc = 0 := rfl
      have hw : sForward.wz = 0 := rfl
      have hy : sForward.vy = 0 := rfl
      rw [hv, ha, hw, hy]
      nlinarith
    exact max_lt one_pos hlt

/-- C7 counterexample: with the desired acceleration held at 0 and a unit
initial error, one sub-step of 0.001 s leaves the error at 0.995, while the
claimed exact exponential law predicts `e^(-0.005)`, which is strictly
larger; the discrete lag does not follow `err(t) = err(0)*e^(-5t)`
exactly. -/
theorem lag_law_not_exact_exponential :
    (subStep azeraParams (1/1000) sLagErr).acc - sLagErr.acc_des ≠
      (sLagErr.acc - sLagErr.acc_des) * Real.exp (-5 * (1/1000)) := by
  have hacc : (subStep azeraParams (1/1000) sLagErr).acc = 199/200 := by
    rw [subStep_acc]
    norm_num [sLagErr]
  rw [hacc]
  have h0 : sLagErr.acc_des = 0 := rfl
  have h1 : sLagErr.acc = 1 := rfl
  rw [h0, h1, sub_zero, sub_zero, one_mul]
  have h := Real.add_one_lt_exp (x := -5 * (1/1000)) (by norm_num)
  intro hEq
  rw [← hEq] at h
  norm_num at h

section LagLemmas

lemma subStep_acc_err (p : Params) (deltaT : ℝ) (s : State) :
    (subStep p deltaT s).acc - s.acc_des = (s.acc - s.acc_des) * (1 - 5 * deltaT) := by
  rw [subStep_acc]
  ring

lemma subStep_df_err (p : Params) (deltaT : ℝ) (s : State) :
    (subStep p deltaT s).df - s.df_des = (s.df - s.df_des) * (1 - 5 * deltaT) := by
  rw [subStep_df]
  ring

lemma iterate_acc_err (p : Params) (deltaT : ℝ) (s : State) (m : ℕ) :
    ((subStep p deltaT)^[m] s).acc - s.acc_des
      = (s.acc - s.acc_des) * (1 - 5 * deltaT) ^ m := by
  induction m with
  | zero => simp
  | succ m ih =>
    rw [Function.iterate_succ_apply']
    have hdes := iterate_subStep_acc_des p deltaT m s
    have e1 := subStep_acc_err p deltaT ((subStep p deltaT)^[m] s)
    rw [hdes] at e1
    rw [e1, ih, pow_succ]
    ring

lemma iterate_df_err (p : Params) (deltaT : ℝ) (s : State) (m : ℕ) :
    ((subStep p deltaT)^[m] s).df - s.df_des
      = (s.df - s.df_des) * (1 - 5 * deltaT) ^ m := by
  induction m with
  | zero => simp
  | succ m ih =>
    rw [Function.iterate_succ_apply']
    have hdes := iterate_subStep_df_des p deltaT m s
    have e1 := subStep_df_err p deltaT ((subStep p deltaT)^[m] s)
    rw [hdes] at e1
    rw [e1, ih, pow_succ]
    ring

lemma ratio_pow_1000_le : ((199 : ℝ)/200) ^ 1000 ≤ 1/100 := by
  rw [div_pow, div_le_div_iff₀ (by positivity) (by norm_num)]
  norm_num

lemma lag_factor_pow_le (n : ℕ) (hn : 1000 ≤ n) :
    ((1 : ℝ) - 5 * (1/1000)) ^ n ≤ 1/100 := by
  have h : ((1 : ℝ) - 5 * (1/1000)) = 199/200 := by norm_num
  rw [h]
  calc ((199 : ℝ)/200) ^ n ≤ ((199 : ℝ)/200) ^ 1000 :=
        pow_le_pow_of_le_one (by norm_num) (by norm_num) hn
    _ ≤ 1/100 := ratio_pow_1000_le

end LagLemmas

/-- C7 (amended): with `deltaT = 0.001` and the desired commands held
constant, the actuation errors follow the exact geometric law
`err_n = err_0 * (1 - 5*deltaT)^n` — the first-order Euler discretization
of the exponential law — and after at least 1000 sub-steps (1 s of simulated
time) both actual values are within `1e-3` of the desired ones, provided the
initial errors are at most `0.1` in magnitude. -/
theorem lag_geometric_convergence (s : State) (n : ℕ) (hn : 1000 ≤ n)
    (ha : |s.acc - s.acc_des| ≤ 1/10) (hd : |s.df - s.df_des| ≤ 1/10) :
    (∀ m : ℕ,
      ((subStep azeraParams (1/1000))^[m] s).acc - s.acc_des
          = (s.acc - s.acc_des) * (1 - 5 * (1/1000)) ^ m ∧
      ((subStep azeraParams (1/1000))^[m] s).df - s.df_des
          = (s.df - s.df_des) * (1 - 5 * (1/1000)) ^ m) ∧
    |((subStep azeraParams (1/1000))^[n] s).acc - s.acc_des| ≤ 1/1000 ∧
    |((subStep azeraParams (1/1000))^[n] s).df - s.df_des| ≤ 1/1000 := by
  have hq0 : (0 : ℝ) ≤ 1 - 5 * (1/1000) := by norm_num
  have hbound : ∀ e : ℝ, |e| ≤ 1/10 → |e * (1 - 5 * (1/1000)) ^ n| ≤ 1/1000 := by
    intro e he
    rw [abs_mul, abs_of_nonneg (pow_nonneg hq0 n)]
    calc |e| * (1 - 5 * (1/1000)) ^ n
        ≤ (1/10) * (1 - 5 * (1/1000)) ^ n :=
          mul_le_mul_of_nonneg_right he (pow_nonneg hq0 n)
      _ ≤ (1/10) * (1/100) :=
          mul_le_mul_of_nonneg_left (lag_factor_pow_le n hn) (by norm_num)
      _ = 1/1000 := by norm_num
  refine ⟨fun m => ⟨iterate_acc_err _ _ s m, iterate_df_err _ _ s m⟩, ?_, ?_⟩
  · rw [iterate_acc_err]
    exact hbound _ ha
  · rw [iterate_df_err]
    exact hbound _ hd

/-- Witness for C7 (amended) at the initial state (zero errors) and
`n = 1000`. -/
theorem lag_geometric_convergence_witness :
    (∀ m : ℕ,
      ((subStep azeraParams (1/1000))^[m] (initState 0 0 0)).acc - (initState 0 0 0).acc_des
          = ((initState 0 0 0).acc - (initState 0 0 0).acc_des) * (1 - 5 * (1/1000)) ^ m ∧
      ((subStep azeraParams (1/1000))^[m] (initState 0 0 0)).df - (initState 0 0 0).df_des
          = ((initState 0 0 0).df - (initState 0 0 0).df_des) * (1 - 5 * (1/1000)) ^ m) ∧
    |((subStep azeraParams (1/1000))^[1000] (initState 0 0 0)).acc - (initState 0 0 0).acc_des| ≤ 1/1000 ∧
    |((subStep azeraParams (1/1000))^[1000] (initState 0 0 0)).df - (initState 0 0 0).df_des| ≤ 1/1000 :=
  lag_geometric_convergence (initState 0 0 0) 1000 (le_refl 1000)
    (by norm_num [initState]) (by norm_num [initState])

/-- C8 counterexample: at rest (`vx = vy = wz = 0`) with desired commands
zero but a residual actual acceleration of 10 m/s², the vehicle does not
stay put: the zero-speed state is left after one sub-step and `X` has moved
after two sub-steps. -/
theorem rest_with_residual_acc_drifts :
    ((subStep azeraParams (1/1000))^[2] sRestAcc).X ≠ sRestAcc.X := by
  have hvxn : vx_next azeraParams (1/1000) sRestAcc = 1/100 := by
    unfold vx_next
    rw [Fyf_of_vx_zero azeraParams sRestAcc rfl]
    norm_num [sRestAcc, max_def]
  have hvx1 : (subStep azeraParams (1/1000) sRestAcc).vx = 1/100 := by
    rw [subStep_vx, hvxn]
  have hvy1 : (subStep azeraParams (1/1000) sRestAcc).vy = 0 := by
    rw [subStep_vy]
    unfold vy_next
    rw [hvxn, if_pos (by norm_num), Fyf_of_vx_zero azeraParams sRestAcc rfl,
      Fyr_of_vx_zero azeraParams sRestAcc rfl]
    norm_num [sRestAcc]
  have hpsi1 : (subStep azeraParams (1/1000) sRestAcc).psi = 0 := by
    rw [subStep_psi]
    have h : sRestAcc.psi + (1/1000) * sRestAcc.wz = 0 := by norm_num [sRestAcc]
    rw [h, wrap_zero]
  have hX1 : (subStep azeraParams (1/1000) sRestAcc).X = 0 := by
    rw [subStep_X]
    norm_num [sRestAcc]
  have h2 : (subStep azeraParams (1/1000))^[2] sRestAcc
      = subStep azeraParams (1/1000) (subStep azeraParams (1/1000) sRestAcc) := by
    rw [show (2 : ℕ) = 1 + 1 from rfl, Function.iterate_succ_apply', Function.iterate_one]
  rw [h2, subStep_X, hX1, hvx1, hvy1, hpsi1]
  norm_num [sRestAcc, Real.cos_zero, Real.sin_zero]

/-- C8 (amended): for every state at rest (`vx = vy = wz = 0`) whose actual
acceleration is also zero and whose heading already lies in `[-π, π)`, if
the desired commands are held at zero then position and heading are
unchanged by every number of sub-steps, for any sub-step duration. -/
theorem rest_stability (s : State) (deltaT : ℝ) (n : ℕ)
    (hvx : s.vx = 0) (hvy : s.vy = 0) (hwz : s.wz = 0) (hacc : s.acc = 0)
    (had : s.acc_des = 0) (hdd : s.df_des = 0)
    (hp1 : -Real.pi ≤ s.psi) (hp2 : s.psi < Real.pi) :
    ((subStep azeraParams deltaT)^[n] s).X = s.X ∧
    ((subStep azeraParams deltaT)^[n] s).Y = s.Y ∧
    ((subStep azeraParams deltaT)^[n] s).psi = s.psi := by
  have key : ∀ m : ℕ,
      ((subStep azeraParams deltaT)^[m] s).vx = 0 ∧
      ((subStep azeraParams deltaT)^[m] s).vy = 0 ∧
      ((subStep azeraParams deltaT)^[m] s).wz = 0 ∧
      ((subStep azeraParams deltaT)^[m] s).acc = 0 ∧
      ((subStep azeraParams deltaT)^[m] s).X = s.X ∧
      ((subStep azeraParams deltaT)^[m] s).Y = s.Y ∧
      ((subStep azeraParams deltaT)^[m] s).psi = s.psi := by
    intro m
    induction m with
    | zero => exact ⟨hvx, hvy, hwz, hacc, rfl, rfl, rfl⟩
    | succ m ih =>
      obtain ⟨h1, h2, h3, h4, h5, h6, h7⟩ := ih
      have hdes := iterate_subStep_acc_des azeraParams deltaT m s
      rw [had] at hdes
      rw [Function.iterate_succ_apply']
      have hvxn : vx_next azeraParams deltaT ((subStep azeraParams deltaT)^[m] s) = 0 := by
        unfold vx_next
        rw [Fyf_of_vx_zero azeraParams _ h1, h1, h2, h4]
        norm_num
      refine ⟨?_, ?_, ?_, ?_, ?_, ?_, ?_⟩
      · rw [subStep_vx, hvxn]
      · rw [subStep_vy]
        unfold vy_next
        rw [hvxn]
        norm_num
      · rw [subStep_wz]
        unfold wz_next
        rw [hvxn]
        norm_num
      · rw [subStep_acc, h4, hdes]
        ring
      · rw [subStep_X, h1, h2, h5]
        ring
      · rw [subStep_Y, h1, h2, h6]
        ring
      · rw [subStep_psi, h3, h7, mul_zero, add_zero]
        exact wrap_eq_self s.psi hp1 hp2
  exact ⟨(key n).2.2.2.2.1, (key n).2.2.2.2.2.1, (key n).2.2.2.2.2.2⟩

/-- Witness for C8 (amended) at the initial state with zero heading and
three sub-steps. -/
theorem rest_stability_witness :
    ((subStep azeraParams (1/1000))^[3] (initState 0 0 0)).X = (initState 0 0 0).X ∧
    ((subStep azeraParams (1/1000))^[3] (initState 0 0 0)).Y = (initState 0 0 0).Y ∧
    ((subStep azeraParams (1/1000))^[3] (initState 0 0 0)).psi = (initState 0 0 0).psi :=
  rest_stability (initState 0 0 0) (1/1000) 3 rfl rfl rfl rfl rfl rfl
    (by simpa [initState] using neg_nonpos.mpr Real.pi_pos.le)
    (by simpa [initState] using Real.pi_pos)

section StraightLineLemmas

lemma alpha_f_straight (p : Params) (s : State) (hvy : s.vy = 0) (hwz : s.wz = 0)
    (hdf : s.df = 0) (hvx : 0 ≤ s.vx) : alpha_f p s = 0 := by
  unfold alpha_f
  split_ifs with h
  · rw [abs_of_nonneg hvx] at h
    have hpos : 0 < s.vx := lt_trans (by norm_num) h
    rw [hvy, hwz, hdf]
    norm_num [arctan2_zero_of_pos s.vx hpos]
  · rfl

lemma alpha_r_straight (p : Params) (s : State) (hvy : s.vy = 0) (hwz : s.wz = 0)
    (hvx : 0 ≤ s.vx) : alpha_r p s = 0 := by
  unfold alpha_r
  split_ifs with h
  · rw [abs_of_nonneg hvx] at h
    have hpos : 0 < s.vx := lt_trans (by norm_num) h
    rw [hvy, hwz]
    norm_num [arctan2_zero_of_pos s.vx hpos]
  · rfl

lemma step_straight (s : State) (h : straightInv s) :
    straightInv (subStep azeraParams (1/1000) s) ∧
    (subStep azeraParams (1/1000) s).X = s.X + (1/1000) * s.vx ∧
    (subStep azeraParams (1/1000) s).vx = s.vx + (1/1000) * s.acc ∧
    (subStep azeraParams (1/1000) s).acc = (199/200) * s.acc + 1/200 := by
  obtain ⟨hvy, hwz, hdf, hpsi, hY, had, hdd, hvx, hacc⟩ := h
  have hFyf : Fyf azeraParams s = 0 := by
    unfold Fyf
    rw [alpha_f_straight azeraParams s hvy hwz hdf hvx, mul_zero]
  have hFyr : Fyr azeraParams s = 0 := by
    unfold Fyr
    rw [alpha_r_straight azeraParams s hvy hwz hvx, mul_zero]
  have hX : s.vx + (1/1000 : ℝ) *
      (s.acc - ((1 / azeraParams.m : ℤ) : ℝ) * 0 * Real.sin s.df + s.wz * 0)
      = s.vx + (1/1000) * s.acc := by ring
  have hvxn : vx_next azeraParams (1/1000) s = s.vx + (1/1000) * s.acc := by
    unfold vx_next
    rw [hFyf, hvy, hX]
    exact max_eq_right (add_nonneg hvx (mul_nonneg (by norm_num) hacc))
  have hvyn : vy_next azeraParams (1/1000) s = 0 := by
    unfold vy_next
    split_ifs with hguard
    · rw [hFyf, hFyr, hvy, hwz]
      ring
    · rfl
  have hwzn : wz_next azeraParams (1/1000) s = 0 := by
    unfold wz_next
    split_ifs with hguard
    · rw [hFyf, hFyr, hwz]
      ring
    · rfl
  have haccn : (subStep azeraParams (1/1000) s).acc = (199/200) * s.acc + 1/200 := by
    rw [subStep_acc, had]
    ring
  have hdfn : (subStep azeraParams (1/1000) s).df = 0 := by
    rw [subStep_df, hdd, hdf]
    ring
  have hpsin : (subStep azeraParams (1/1000) s).psi = 0 := by
    rw [subStep_psi, hpsi, hwz, mul_zero, add_zero, wrap_zero]
  refine ⟨⟨?_, ?_, hdfn, hpsin, ?_, ?_, ?_, ?_, ?_⟩, ?_, ?_, haccn⟩
  · rw [subStep_vy, hvyn]
  · rw [subStep_wz, hwzn]
  · rw [subStep_Y, hpsi, hvy, hY, Real.sin_zero, Real.cos_zero]
    ring
  · rw [subStep_acc_des, had]
  · rw [subStep_df_des, hdd]
  · rw [subStep_vx, hvxn]
    exact add_nonneg hvx (mul_nonneg (by norm_num) hacc)
  · rw [haccn]
    linarith
  · rw [subStep_X, hpsi, hvy, Real.sin_zero, Real.cos_zero]
    ring
  · rw [subStep_vx, hvxn]

lemma straight_iter (n : ℕ) :
    straightInv ((subStep azeraParams (1/1000))^[n] sStraight) := by
  induction n with
  | zero => exact ⟨rfl, rfl, rfl, rfl, rfl, rfl, rfl, le_refl 0, le_refl 0⟩
  | succ n ih =>
    rw [Function.iterate_succ_apply']
    exact (step_straight _ ih).1

lemma straight_acc_lb (n : ℕ) :
    1/200 ≤ ((subStep azeraParams (1/1000))^[n+1] sStraight).acc := by
  rw [Function.iterate_succ_apply', (step_straight _ (straight_iter n)).2.2.2]
  have hacc := (straight_iter n).2.2.2.2.2.2.2.2
  linarith

end StraightLineLemmas

/-- C9: in the straight-line scenario (start at the origin with zero heading
and zero speeds, `acc_des = 1`, `df_des = 0` held constant, sub-steps of
0.001 s), after every number of sub-steps the lateral position `Y` is
exactly 0, each sub-step advances `X` by exactly `0.001 * vx` so `X` is
monotonically non-decreasing, and from the second sub-step on the forward
speed is strictly positive, so `X` strictly increases once `vx` is
positive. -/
theorem straight_line_scenario (n : ℕ) :
    ((subStep azeraParams (1/1000))^[n] sStraight).Y = 0 ∧
    ((subStep azeraParams (1/1000))^[n+1] sStraight).X
        = ((subStep azeraParams (1/1000))^[n] sStraight).X
          + (1/1000) * ((subStep azeraParams (1/1000))^[n] sStraight).vx ∧
    ((subStep azeraParams (1/1000))^[n] sStraight).X
        ≤ ((subStep azeraParams (1/1000))^[n+1] sStraight).X ∧
    0 < ((subStep azeraParams (1/1000))^[n+2] sStraight).vx := by
  have hinv := straight_iter n
  have hX : ((subStep azeraParams (1/1000))^[n+1] sStraight).X
      = ((subStep azeraParams (1/1000))^[n] sStraight).X
        + (1/1000) * ((subStep azeraParams (1/1000))^[n] sStraight).vx := by
    rw [Function.iterate_succ_apply']
    exact (step_straight _ hinv).2.1
  refine ⟨hinv.2.2.2.2.1, hX, ?_, ?_⟩
  · rw [hX]
    have hvx := hinv.2.2.2.2.2.2.2.1
    have hmul : 0 ≤ (1/1000 : ℝ) * ((subStep azeraParams (1/1000))^[n] sStraight).vx :=
      mul_nonneg (by norm_num) hvx
    linarith
  · have hlb := straight_acc_lb n
    have hinv1 := straight_iter (n+1)
    have hvx1 := hinv1.2.2.2.2.2.2.2.1
    rw [show n + 2 = (n+1) + 1 from rfl, Function.iterate_succ_apply',
      (step_straight _ hinv1).2.2.1]
    have hmul : (1/1000 : ℝ) * (1/200)
        ≤ (1/1000) * ((subStep azeraParams (1/1000))^[n+1] sStraight).acc :=
      mul_le_mul_of_nonneg_left hlb (by norm_num)
    linarith

end VehicleSim
